import Mathlib

/-!
Verification of the `emmett-hono` HTTP-adapter package against its
natural-language specification.

The development shallowly embeds the TypeScript sources:

* `src/packages/emmett-hono/src/types.ts` — ETag helpers
  (`isWeakETag`, `getWeakETagValue`, `toWeakETag`), the `ProblemDocument`
  class with its `defaultTitleForStatus` table, and `defaultErrorMapper`;
* `src/packages/emmett-hono/src/responses.ts` — `sendCreated`,
  `sendProblem`, `sendOK`, `sendNotFound`;
* `src/packages/emmett-hono/src/middlewares/problemDetails.ts` —
  `problemDetailsHandler`;
* the repository's own ETag middleware (`generateETag`, `applyETag`);
* `src/packages/emmett-hono/src/application.ts` — `getApplication`
  (error handler and not-found handler installation).

JavaScript strings are modelled as Lean `String`, HTTP statuses as `Nat`,
optional / possibly-`undefined` record fields as `Option`, thrown errors
as `Except`, and JSON values as the inductive `JsVal`.  Fetch-API
`Response` objects are modelled by the `HttpResponse` record holding the
status, the headers that this package reads or writes (`Content-Type`,
`Location`, `ETag`) and the body.
-/

namespace EmmettHono

/-! ## ETag helpers (types.ts lines 104-156, etag.ts lines 13-56)

The source tests strings against the JavaScript regular expression
`WeakETagRegex = /^W\/"(.*)"$/`.  In JavaScript (no `s` flag) `.` matches
any character except the four line terminators LF, CR, U+2028, U+2029,
and without the `m` flag `^`/`$` anchor at the start/end of the input.
Hence the regex matches a string `e` exactly when `e` is
`W/"` ++ m ++ `"` for the (unique, because of the `$` anchor) middle part
`m` obtained by dropping the three-character prefix and the final
quote, and `m` contains no line terminator.  `exec` then returns the
two-element match array `[e, m]`. -/

/-- A character that JavaScript `.` does not match: LF, CR, U+2028, U+2029. -/
def isLineTerminator (ch : Char) : Bool :=
  ch = '\n' || ch = '\r' || ch = ' ' || ch = ' '

/-- Model of `WeakETagRegex.exec(e)` for `/^W\/"(.*)"$/`: `none` when the
regex does not match, otherwise the match array `[whole, group1]`. -/
def weakETagExec (e : String) : Option (List String) :=
  match e.data with
  | 'W' :: '/' :: '"' :: rest =>
    match rest.getLast? with
    | some '"' =>
      if rest.dropLast.all (fun ch => !(isLineTerminator ch)) then
        some [e, String.mk rest.dropLast]
      else none
    | _ => none
  | _ => none

/-- `isWeakETag` (types.ts line 115): `WeakETagRegex.test(etag)` on a string. -/
def isWeakETag (etag : String) : Bool :=
  (weakETagExec etag).isSome

/-- The message of the error thrown on a malformed weak ETag (types.ts line 109). -/
def WRONG_WEAK_ETAG_FORMAT : String := "WRONG_WEAK_ETAG_FORMAT"

/-- `getWeakETagValue` (types.ts lines 127-133): runs `WeakETagRegex.exec`,
throws `Error(WRONG_WEAK_ETAG_FORMAT)` when the result is `null` or has
fewer than two entries, and otherwise returns entry 1 (the captured group). -/
def getWeakETagValue (etag : String) : Except String String :=
  match weakETagExec etag with
  | none => .error WRONG_WEAK_ETAG_FORMAT
  | some result =>
    if result.length < 2 then .error WRONG_WEAK_ETAG_FORMAT
    else .ok (result.getD 1 "")

/-- `toWeakETag` (types.ts lines 141-146): template literals
`"${value}"` when `strong` is truthy and `W/"${value}"` otherwise.
The `value` argument of the source is a number, bigint or string; it
enters the template literal as its string image, which is what the
`value` parameter holds here. -/
def toWeakETag (value : String) (strong : Bool := false) : String :=
  if strong then "\"" ++ value ++ "\"" else "W/\"" ++ value ++ "\""

/-- `true` when no character of `s` is a JavaScript line terminator. -/
def noLineTerminators (s : String) : Bool :=
  s.data.all (fun ch => !(isLineTerminator ch))

/-! ## JSON values and Fetch-API responses

`JsVal` models the JavaScript values this package serializes into JSON
bodies; `truthy` models JavaScript truthiness on them (`0`, `""`,
`false`, `null` are falsy, every other modelled value is truthy). -/

inductive JsVal where
  | null : JsVal
  | bool (b : Bool) : JsVal
  | num (n : Int) : JsVal
  | str (s : String) : JsVal
  | obj (fields : List (String × JsVal)) : JsVal

/-- JavaScript truthiness of a `JsVal`. -/
def truthy : JsVal → Bool
  | .null => false
  | .bool b => b
  | .num n => n != 0
  | .str s => s != ""
  | .obj _ => true

/-- JavaScript truthiness of a possibly-`undefined` string, as used by
`if (options.eTag)`-style guards: `undefined` and `""` are falsy. -/
def truthyStr : Option String → Bool
  | none => false
  | some s => s != ""

/-- `ProblemDocument` (types.ts lines 37-59): an RFC 7807 payload. -/
structure ProblemDocument where
  type : String
  title : String
  detail : String
  status : Nat
  instance_ : Option String

/-- `defaultTitleForStatus` (types.ts lines 62-70). -/
def defaultTitleForStatus (status : Nat) : String :=
  if status = 400 then "Bad Request"
  else if status = 403 then "Forbidden"
  else if status = 404 then "Not Found"
  else if status = 409 then "Conflict"
  else if status = 412 then "Precondition Failed"
  else if status = 500 then "Internal Server Error"
  else "Error"

/-- The `ProblemDocument` constructor (types.ts lines 45-58): `type`
defaults to `about:blank`, `title` defaults from the status table, and
`instance` is only stored when truthy. -/
def mkProblemDocument (status : Nat) (detail : String)
    (title : Option String := none) (type : Option String := none)
    (instance_ : Option String := none) : ProblemDocument :=
  { status := status
    detail := detail
    type := type.getD "about:blank"
    title := title.getD (defaultTitleForStatus status)
    instance_ := if truthyStr instance_ then instance_ else none }

/-- The body of a modelled Fetch-API `Response`. -/
inductive ResBody where
  | empty : ResBody
  | jsonVal (v : JsVal) : ResBody
  | problemJson (p : ProblemDocument) : ResBody

/-- A Fetch-API `Response` as observed through this package: status plus
the headers the package reads or writes, and the body. -/
structure HttpResponse where
  status : Nat
  contentType : Option String
  location : Option String
  etagHeader : Option String
  body : ResBody

/-- `c.json(value, status)`: JSON body with `application/json` content type. -/
def honoJson (v : JsVal) (status : Nat) : HttpResponse :=
  { status := status, contentType := some "application/json"
    location := none, etagHeader := none, body := .jsonVal v }

/-- `c.body(null, status)`: empty body, no content type set. -/
def honoEmptyBody (status : Nat) : HttpResponse :=
  { status := status, contentType := none
    location := none, etagHeader := none, body := .empty }

/-- A header value set only when the configured string is truthy,
modelling `if (x) response.headers.set(name, x)`. -/
def setIfTruthy (o : Option String) : Option String :=
  if truthyStr o then o else none

/-! ## Response helpers (responses.ts) -/

/-- `HttpResponseOptions` (responses.ts lines 9-16). -/
structure HttpResponseOptions where
  body : Option JsVal := none
  location : Option String := none
  eTag : Option String := none

/-- `CreatedHttpResponseOptions` (responses.ts lines 19-23): `createdId`
and `url` as possibly-absent fields (the TypeScript union requires at
least one of them, which the claims instantiate). -/
structure CreatedHttpResponseOptions where
  createdId : Option String := none
  url : Option String := none
  eTag : Option String := none

/-- `HttpProblemResponseOptions` (responses.ts lines 34-43). -/
structure HttpProblemResponseOptions where
  problem : Option ProblemDocument := none
  problemDetails : Option String := none
  location : Option String := none
  eTag : Option String := none

/-- The request-facing part of the Hono `Context` this package uses. -/
structure HonoContext where
  reqUrl : String

/-- `baseUrl.endsWith('/')` (responses.ts line 82): for the
single-character suffix this is exactly "the last character is `/`". -/
def endsWithSlash (s : String) : Bool :=
  s.data.getLast? = some '/'

/-- `sendCreated` (responses.ts lines 66-92).  Body is `{ id: createdId }`
when `createdId` is present; `Location` is the truthy `url`, otherwise
derived from the request URL and a truthy `createdId` (no duplicate
slash when the request URL already ends in `/`); `ETag` when truthy. -/
def sendCreated (c : HonoContext) (options : CreatedHttpResponseOptions) :
    HttpResponse :=
  let bodyContent : Option JsVal :=
    match options.createdId with
    | some id => some (.obj [("id", .str id)])
    | none => none
  let response :=
    match bodyContent with
    | some v => honoJson v 201
    | none => honoEmptyBody 201
  let location : Option String :=
    if truthyStr options.url then options.url
    else if truthyStr options.createdId then
      let baseUrl := c.reqUrl
      let separator := if endsWithSlash baseUrl then "" else "/"
      some (baseUrl ++ separator ++ (options.createdId.getD ""))
    else none
  { response with location := location, etagHeader := setIfTruthy options.eTag }

/-- `sendProblem` (responses.ts lines 98-127): uses the given
`ProblemDocument` or constructs one from `problemDetails || ''`; always
sets `Content-Type: application/problem+json` and optionally `Location`
and `ETag`.  Both source branches (`c.json` for contentful statuses, a
raw `Response` with the stringified document for 204/304) produce the
same observable response in this model. -/
def sendProblem (statusCode : Nat) (options : HttpProblemResponseOptions) :
    HttpResponse :=
  let problemDoc : ProblemDocument :=
    match options.problem with
    | some p => p
    | none =>
      mkProblemDocument statusCode
        (match options.problemDetails with
         | some d => d
         | none => "")
  { status := statusCode
    contentType := some "application/problem+json"
    location := setIfTruthy options.location
    etagHeader := setIfTruthy options.eTag
    body := .problemJson problemDoc }

/-- The `title` of the Problem Details body of a response, when the
response carries one. -/
def problemTitle (r : HttpResponse) : Option String :=
  match r.body with
  | .problemJson p => some p.title
  | _ => none

/-- `sendOK` (responses.ts lines 134-141): JSON body only when
`options?.body` is truthy, else an empty 200; `ETag` / `Location` when
truthy. -/
def sendOK (options : HttpResponseOptions) : HttpResponse :=
  let response :=
    match options.body with
    | some v => if truthy v then honoJson v 200 else honoEmptyBody 200
    | none => honoEmptyBody 200
  { response with
    etagHeader := setIfTruthy options.eTag
    location := setIfTruthy options.location }

/-- `sendNotFound` (responses.ts lines 182-187). -/
def sendNotFound (options : HttpProblemResponseOptions) : HttpResponse :=
  sendProblem 404 options

/-! ## Error mapping (types.ts lines 76-93, middlewares/problemDetails.ts) -/

/-- The error classes the surrounding ecosystem throws; the mapper of the
current package never inspects the class, the old package's mapper did. -/
inductive ErrKind where
  | concurrency : ErrKind
  | illegalState : ErrKind
  | notFoundError : ErrKind
  | validation : ErrKind
  | httpException (status : Nat) : ErrKind
  | generic : ErrKind

/-- A thrown error: its class and its `message` (for non-`Error` throwables
the message field holds `String(error)`). -/
structure ErrVal where
  kind : ErrKind
  message : String

/-- `ErrorToProblemDetailsMapping` (types.ts lines 76-79): may return
`undefined` to fall through to the default mapping. -/
def ErrorToProblemDetailsMapping : Type :=
  ErrVal → HonoContext → Option ProblemDocument

/-- `defaultErrorMapper` (types.ts lines 82-93): converts ANY error —
regardless of its class — to an HTTP 500 `ProblemDocument` carrying the
error message (or `Internal Server Error` when the message is falsy). -/
def defaultErrorMapper (error : ErrVal) : ProblemDocument :=
  let message := error.message
  mkProblemDocument 500
    (if message = "" then "Internal Server Error" else message)
    (some "Internal Server Error") (some "about:blank")

/-- `problemDetailsHandler` (middlewares/problemDetails.ts lines 14-48):
the `mapError` parameter defaults to `defaultErrorMapper`; a returned
`undefined` falls back to `defaultErrorMapper`; the response status is
`problemDoc.status || 500`; the document is sent via `sendProblem`. -/
def problemDetailsHandler (mapError : Option ErrorToProblemDetailsMapping) :
    ErrVal → HonoContext → HttpResponse :=
  fun err c =>
    let m : ErrorToProblemDetailsMapping :=
      mapError.getD (fun e _ => some (defaultErrorMapper e))
    let problemDoc := (m err c).getD (defaultErrorMapper err)
    let status := if problemDoc.status = 0 then 500 else problemDoc.status
    sendProblem status { problem := some problemDoc }

/-! ## Application factory (application.ts) -/

/-- The slice of `ApplicationOptions` (types.ts lines 12-32) that decides
error handling; the CORS / ETag / logger toggles only install middleware
orthogonal to the claims settled here. -/
structure ApplicationOptions where
  mapError : Option ErrorToProblemDetailsMapping := none
  disableProblemDetails : Bool := false

/-- The handlers `getApplication` installs on the Hono app. -/
structure HonoApp where
  onError : Option (ErrVal → HonoContext → HttpResponse)
  notFoundHandler : HonoContext → HttpResponse

/-- `getApplication` (application.ts lines 19-68): registers a `notFound`
handler sending a 404 problem with detail
`The requested resource was not found`, and — unless
`disableProblemDetails` — installs `problemDetailsHandler(mapError)` as
the global error handler. -/
def getApplication (options : ApplicationOptions) : HonoApp :=
  { notFoundHandler := fun _ =>
      sendNotFound { problemDetails := some "The requested resource was not found" }
    onError :=
      if options.disableProblemDetails then none
      else some (problemDetailsHandler options.mapError) }

/-- The response the app produces when a route handler throws: the
installed error handler applied to the error (`none` when Problem
Details is disabled and the error propagates to the host framework). -/
def HonoApp.handleError (app : HonoApp) (err : ErrVal) (c : HonoContext) :
    Option HttpResponse :=
  app.onError.map (fun h => h err c)

/-! ## Repository ETag middleware (`generateETag`, `applyETag`)

The middleware hashes the response body with `createHash('md5')` from the
platform crypto library; that hash is external code, so the embedding
takes the hex-digest function as a parameter `hash` — every property
proved below holds for any hash function. -/

/-- `ETagOptions`: `{ weak?: boolean }`. -/
structure ETagOptions where
  weak : Option Bool := none

/-- `generateETag(content, weak = true)`: `W/"<hex>"` when weak,
`"<hex>"` when strong. -/
def generateETag (hash : String → String) (content : String)
    (weak : Bool := true) : String :=
  if weak then "W/\"" ++ hash content ++ "\"" else "\"" ++ hash content ++ "\""

/-- The effective `weak` flag after
`{ ...defaultETagOptions, ...options }` with `defaultETagOptions =
{ weak: true }` (an absent or undefined `weak` means weak ETags). -/
def effectiveWeak (options : Option ETagOptions) : Bool :=
  match options with
  | none => true
  | some o => o.weak.getD true

/-- The post-`next()` step of `applyETag` (the repo ETag middleware,
lines 46-85): on GET/HEAD responses with `200 <= status < 300`,
`status != 204`, no pre-existing `ETag` header, and a readable non-empty
body text, it attaches `generateETag(body, etagOptions.weak)`; in every
other case the response keeps no middleware-added ETag.  `bodyText` is
the result of `res.clone().text()` (`none` when reading threw). -/
def applyETagAfter (hash : String → String) (options : Option ETagOptions)
    (method : String) (status : Nat) (hasETagHeader : Bool)
    (bodyText : Option String) : Option String :=
  if (method = "GET" || method = "HEAD")
      && (200 ≤ status : Bool) && (status < 300 : Bool)
      && !(status = 204 : Bool) then
    if hasETagHeader then none
    else
      match bodyText with
      | some body =>
        if body.length > 0 then
          some (generateETag hash body (effectiveWeak options))
        else none
      | none => none
  else none

end EmmettHono

namespace EmmettHono

theorem string_mk_data (s : String) : String.mk s.data = s := by
  cases s; rfl

theorem data_append (a b : String) : (a ++ b).data = a.data ++ b.data := rfl

/-- Computation of `weakETagExec` on a well-formed weak ETag. -/
theorem weakETagExec_wellFormed (m : String)
    (h : noLineTerminators m = true) :
    weakETagExec ("W/\"" ++ m ++ "\"") = some ["W/\"" ++ m ++ "\"", m] := by
  unfold weakETagExec
  have hdata : ("W/\"" ++ m ++ "\"").data
      = 'W' :: '/' :: '"' :: (m.data ++ ['"']) := by
    simp [data_append]
  rw [hdata]
  simp only [List.getLast?_concat, List.dropLast_concat]
  rw [show (m.data.all fun ch => !(isLineTerminator ch)) = true from h]
  simp [string_mk_data]

/-- When exec fails, the middle part either is not delimited correctly or
contains a line terminator; in particular a round trip through
`toWeakETag` only fails on a line terminator. -/
theorem weakETagExec_toWeakETag_of_lineTerminator (m : String)
    (h : noLineTerminators m = false) :
    weakETagExec ("W/\"" ++ m ++ "\"") = none := by
  unfold weakETagExec
  have hdata : ("W/\"" ++ m ++ "\"").data
      = 'W' :: '/' :: '"' :: (m.data ++ ['"']) := by
    simp [data_append]
  rw [hdata]
  simp only [List.getLast?_concat, List.dropLast_concat]
  rw [show (m.data.all fun ch => !(isLineTerminator ch)) = false from h]
  simp

theorem str_append_assoc (a b c : String) : (a ++ b) ++ c = a ++ (b ++ c) := by
  cases a; cases b; cases c
  show String.mk _ = String.mk _
  simp

/-- Every successful `weakETagExec` result is the two-element match array
`[whole, captured]`. -/
theorem weakETagExec_shape (e : String) (arr : List String)
    (h : weakETagExec e = some arr) : ∃ m, arr = [e, m] := by
  unfold weakETagExec at h
  split at h
  case _ rest =>
    split at h
    case _ =>
      split at h
      · exact ⟨_, (Option.some.inj h).symm⟩
      · exact absurd h (by simp)
    case _ => exact absurd h (by simp)
  case _ => exact absurd h (by simp)

/-- C3 counterexample: on the one-character string LF, `toWeakETag`
produces `W/"<LF>"`, which JavaScript `.` cannot re-match, so
`getWeakETagValue` throws instead of round-tripping. -/
theorem toWeakETag_roundTrip_counterexample :
    getWeakETagValue (toWeakETag "\n") = .error "WRONG_WEAK_ETAG_FORMAT" ∧
    getWeakETagValue (toWeakETag "\n") ≠ .ok "\n" := by
  constructor
  · rfl
  · intro hcontra
    exact absurd (rfl.trans hcontra :
      (Except.error WRONG_WEAK_ETAG_FORMAT : Except String String) = .ok "\n")
      (by simp)

/-- C3 (amended): `getWeakETagValue (toWeakETag v)` round-trips to the
string image of `v` for every value whose string image contains no
JavaScript line terminator — in particular for every number and bigint,
and for every string without LF, CR, U+2028, U+2029. -/
theorem toWeakETag_getWeakETagValue_roundTrip (s : String)
    (h : noLineTerminators s = true) :
    getWeakETagValue (toWeakETag s) = .ok s := by
  have hexec := weakETagExec_wellFormed s h
  unfold toWeakETag
  unfold getWeakETagValue
  simp only [if_neg (by simp : ¬ false = true)]
  rw [hexec]
  rfl

/-- Closed witness for the amended C3 round trip, at the string image of
the number 42. -/
theorem toWeakETag_roundTrip_witness :
    noLineTerminators "42" = true ∧ getWeakETagValue (toWeakETag "42") = .ok "42" :=
  ⟨by decide, toWeakETag_getWeakETagValue_roundTrip "42" (by decide)⟩

/-- C6: `getWeakETagValue e` throws the error `WRONG_WEAK_ETAG_FORMAT`
exactly when `e` does not match `WeakETagRegex`; on a match it returns
the captured inner value without throwing. -/
theorem getWeakETagValue_error_iff_no_match (e : String) :
    (getWeakETagValue e = .error WRONG_WEAK_ETAG_FORMAT ↔ isWeakETag e = false) ∧
    (∀ w v, weakETagExec e = some [w, v] → getWeakETagValue e = .ok v) := by
  constructor
  · cases hexec : weakETagExec e with
    | none => simp [getWeakETagValue, isWeakETag, hexec]
    | some arr =>
      obtain ⟨m, rfl⟩ := weakETagExec_shape e arr hexec
      simp [getWeakETagValue, isWeakETag, hexec]
  · intro w v hexec
    simp [getWeakETagValue, hexec]

/-- Closed witness for C6 at the well-formed weak ETag `W/"42"`. -/
theorem getWeakETagValue_match_witness :
    getWeakETagValue "W/\"42\"" = .ok "42" :=
  (getWeakETagValue_error_iff_no_match "W/\"42\"").2 "W/\"42\"" "42" (by rfl)

/-- C2: `sendProblem` with status in 400/403/404/409/412/500 and no
explicit `ProblemDocument` (hence no explicit title) produces a body
whose `title` is the fixed table's entry, whatever `problemDetails`,
`location`, `eTag` are. -/
theorem sendProblem_default_title_table
    (details location eTag : Option String) :
    problemTitle (sendProblem 400 ⟨none, details, location, eTag⟩) = some "Bad Request" ∧
    problemTitle (sendProblem 403 ⟨none, details, location, eTag⟩) = some "Forbidden" ∧
    problemTitle (sendProblem 404 ⟨none, details, location, eTag⟩) = some "Not Found" ∧
    problemTitle (sendProblem 409 ⟨none, details, location, eTag⟩) = some "Conflict" ∧
    problemTitle (sendProblem 412 ⟨none, details, location, eTag⟩) = some "Precondition Failed" ∧
    problemTitle (sendProblem 500 ⟨none, details, location, eTag⟩) = some "Internal Server Error" :=
  ⟨rfl, rfl, rfl, rfl, rfl, rfl⟩

/-- C5: when a custom `mapError` returns `undefined` on an error, the
handler built from it responds exactly like the handler built with the
built-in default mapping, and the status of that response is 500. -/
theorem problemDetailsHandler_undefined_falls_through
    (mapError : ErrorToProblemDetailsMapping) (err : ErrVal) (c : HonoContext)
    (h : mapError err c = none) :
    problemDetailsHandler (some mapError) err c = problemDetailsHandler none err c ∧
    (problemDetailsHandler (some mapError) err c).status = 500 := by
  unfold problemDetailsHandler
  simp [h, sendProblem, defaultErrorMapper, mkProblemDocument]

/-- Closed witness for C5: a mapper that maps nothing, applied to an
unmapped custom error. -/
theorem problemDetailsHandler_fallback_witness :
    (fun (_ : ErrVal) (_ : HonoContext) =>
        (none : Option ProblemDocument)) ⟨.generic, "boom"⟩ ⟨"http://localhost/error"⟩ = none ∧
    problemDetailsHandler (some fun _ _ => none) ⟨.generic, "boom"⟩ ⟨"http://localhost/error"⟩
        = problemDetailsHandler none ⟨.generic, "boom"⟩ ⟨"http://localhost/error"⟩ ∧
    (problemDetailsHandler (some fun _ _ => none)
        ⟨.generic, "boom"⟩ ⟨"http://localhost/error"⟩).status = 500 := by
  refine ⟨rfl, ?_⟩
  exact problemDetailsHandler_undefined_falls_through
    (fun _ _ => none) ⟨.generic, "boom"⟩ ⟨"http://localhost/error"⟩ rfl

/-- C1 counterexample: with the current package's built-in mapping, a
route throwing a `ConcurrencyError` is answered with status 500, not
412 — `defaultErrorMapper` in types.ts never inspects the error class. -/
theorem getApplication_concurrencyError_counterexample :
    (((getApplication { mapError := none, disableProblemDetails := false }).handleError
        ⟨.concurrency, "Expected version 1, but got 2"⟩
        ⟨"http://localhost/counters/c1"⟩).map HttpResponse.status) = some 500 ∧
    (((getApplication { mapError := none, disableProblemDetails := false }).handleError
        ⟨.concurrency, "Expected version 1, but got 2"⟩
        ⟨"http://localhost/counters/c1"⟩).map HttpResponse.status) ≠ some 412 := by
  constructor
  · rfl
  · intro hcontra
    exact absurd (rfl.trans hcontra : (some 500 : Option Nat) = some 412) (by simp)

/-- C1 (amended): a route handler throwing a `ConcurrencyError` in an
application built by `getApplication` with the default (built-in) error
mapping is answered with an HTTP 500 response with Content-Type
`application/problem+json` and a Problem Details body — like every other
error, because the built-in `defaultErrorMapper` maps all errors to 500;
only the old package's mapper produced 412 for `ConcurrencyError`. -/
theorem getApplication_concurrencyError_yields_500 (msg : String) (c : HonoContext) :
    ∃ resp,
      (getApplication { mapError := none, disableProblemDetails := false }).handleError
        ⟨.concurrency, msg⟩ c = some resp ∧
      resp.status = 500 ∧
      resp.contentType = some "application/problem+json" ∧
      ∃ p, resp.body = .problemJson p ∧ p.status = 500 ∧
        p.title = "Internal Server Error" :=
  ⟨_, rfl, rfl, rfl, _, rfl, rfl, rfl⟩

/-- C9: the 404 handler installed by `getApplication` answers any
unmatched request with status 404, Content-Type
`application/problem+json`, and a Problem Details body whose detail is
`The requested resource was not found`. -/
theorem getApplication_notFound_problem (options : ApplicationOptions)
    (c : HonoContext) :
    ((getApplication options).notFoundHandler c).status = 404 ∧
    ((getApplication options).notFoundHandler c).contentType
      = some "application/problem+json" ∧
    ∃ p, ((getApplication options).notFoundHandler c).body = .problemJson p ∧
      p.detail = "The requested resource was not found" ∧
      p.title = "Not Found" ∧ p.status = 404 :=
  ⟨rfl, rfl, _, rfl, rfl, rfl, rfl⟩

/-- C7 counterexample: `sendCreated` with `createdId` present but equal to
the empty string sets no `Location` header at all (the source guards on
`options.createdId` being truthy), refuting the claim's universal
`Location = request URL + "/" + createdId`. -/
theorem sendCreated_emptyId_counterexample :
    (sendCreated ⟨"http://localhost/todos"⟩
        { createdId := some "", url := none, eTag := none }).location = none ∧
    (sendCreated ⟨"http://localhost/todos"⟩
        { createdId := some "", url := none, eTag := none }).location
      ≠ some "http://localhost/todos/" := by
  constructor
  · rfl
  · intro hcontra
    exact absurd (rfl.trans hcontra :
      (none : Option String) = some "http://localhost/todos/") (by simp)

/-- C7 (amended): for every NON-EMPTY `createdId` and no `url`,
`sendCreated` returns a 201 response whose `Location` is the request URL
followed by `/` and the id (no duplicate slash when the request URL
already ends in `/`) and whose JSON body is the object `id: createdId`. -/
theorem sendCreated_location_from_createdId (c : HonoContext) (id : String)
    (eTag : Option String) (h : id ≠ "") :
    (sendCreated c { createdId := some id, url := none, eTag := eTag }).status = 201 ∧
    (sendCreated c { createdId := some id, url := none, eTag := eTag }).location
      = some (c.reqUrl ++ (if endsWithSlash c.reqUrl then "" else "/") ++ id) ∧
    (sendCreated c { createdId := some id, url := none, eTag := eTag }).body
      = .jsonVal (.obj [("id", .str id)]) := by
  have hid : (id != "") = true := by simp [h]
  unfold sendCreated
  simp [truthyStr, hid, honoJson]

/-- Closed witness for the amended C7. -/
theorem sendCreated_location_witness :
    ("todo-1" : String) ≠ "" ∧
    (sendCreated ⟨"http://localhost/todos"⟩
        { createdId := some "todo-1", url := none, eTag := none }).location
      = some "http://localhost/todos/todo-1" := by
  have h := sendCreated_location_from_createdId
    ⟨"http://localhost/todos"⟩ "todo-1" none (by decide)
  exact ⟨by decide, h.2.1.trans (by rfl)⟩

/-- C10: `sendOK` with a falsy body value (0, empty string, false, null)
returns the same response as `sendOK` with no body at all — a 200 with
empty body and no JSON payload; a truthy body value is JSON-serialized. -/
theorem sendOK_falsy_body (v : JsVal) (location eTag : Option String) :
    (truthy v = false →
      sendOK { body := some v, location := location, eTag := eTag }
        = sendOK { body := none, location := location, eTag := eTag } ∧
      (sendOK { body := some v, location := location, eTag := eTag }).body = .empty ∧
      (sendOK { body := some v, location := location, eTag := eTag }).status = 200) ∧
    (truthy v = true →
      (sendOK { body := some v, location := location, eTag := eTag }).body
        = .jsonVal v) := by
  constructor <;> intro h <;> simp [sendOK, h, honoJson, honoEmptyBody]

/-- Closed witness for C10 at the falsy body value 0. -/
theorem sendOK_falsy_witness :
    truthy (.num 0) = false ∧
    sendOK { body := some (.num 0), location := none, eTag := none }
      = sendOK { body := none, location := none, eTag := none } :=
  ⟨rfl, ((sendOK_falsy_body (.num 0) none none).1 rfl).1⟩

/-- C4: the repository ETag middleware, on a GET response with status
200, no pre-set ETag and a non-empty body, attaches an ETag that starts
with `W/"` under the default options (weak), and with `"` when
`weak:false` was configured — for any body hashing function. -/
theorem applyETag_get200_etag_shape (hash : String → String)
    (options : Option ETagOptions) (b : String) (hb : 0 < b.length) :
    (effectiveWeak options = true →
      ∃ rest, applyETagAfter hash options "GET" 200 false (some b)
        = some ("W/\"" ++ rest)) ∧
    (effectiveWeak options = false →
      ∃ rest, applyETagAfter hash options "GET" 200 false (some b)
        = some ("\"" ++ rest)) := by
  constructor <;> intro h <;> refine ⟨hash b ++ "\"", ?_⟩ <;>
    simp [applyETagAfter, generateETag, h, hb, str_append_assoc]

/-- Closed witness for C4 with the identity function as the hash and the
default (absent) options. -/
theorem applyETag_get200_witness :
    (0 : Nat) < ("pong" : String).length ∧
    ∃ rest, applyETagAfter (fun s => s) none "GET" 200 false (some "pong")
      = some ("W/\"" ++ rest) := by
  have h := applyETag_get200_etag_shape (fun s => s) none "pong" (by decide)
  exact ⟨by decide, h.1 rfl⟩

/-- C8: the ETag middleware never attaches an ETag header to a 204
response, for every method, options, pre-existing-header state and body. -/
theorem applyETag_skips_204 (hash : String → String)
    (options : Option ETagOptions) (method : String) (hasETagHeader : Bool)
    (bodyText : Option String) :
    applyETagAfter hash options method 204 hasETagHeader bodyText = none := by
  simp [applyETagAfter]

end EmmettHono
